import Mathlib

/-!
Shallow embedding of the uni-app translation-and-scheduling layer
(src/native_app.rs and src/web_app.rs), used to check the repository's
specification claims.  Machine integers (u32 sizes, button ids) are
modelled as `Nat`; overflow of the `u32` video-mode area product is
unreachable for physical video modes and is not modelled.  Floating-point
coordinates and scale factors are carried as `Int`/`Nat` placeholders:
no claim inspects their numeric values.
-/

namespace Uni

/-- Modelled from the spec: canonical mouse-button event payload
(`events::MouseButtonEvent`), declared in the crate root which is missing
from src; shape fixed by its uses in both backends. -/
structure MouseButtonEvent where
  button : Nat
  deriving DecidableEq, Repr

/-- Modelled from the spec: canonical key-down payload (`events::KeyDownEvent`),
declared in the missing crate root; shape fixed by its uses in both backends. -/
structure KeyDownEvent where
  key : String
  code : String
  shift : Bool
  alt : Bool
  ctrl : Bool
  deriving DecidableEq, Repr

/-- Modelled from the spec: canonical key-up payload (`events::KeyUpEvent`),
declared in the missing crate root; shape fixed by its uses in both backends. -/
structure KeyUpEvent where
  key : String
  code : String
  shift : Bool
  alt : Bool
  ctrl : Bool
  deriving DecidableEq, Repr

/-- Modelled from the spec: the canonical event union `AppEvent` (§3 of the
spec), declared in the missing crate root; variants fixed by their uses in
both backends.  Mouse coordinates are `f64` in the source and carried here
as an opaque `Int` pair. -/
inductive AppEvent where
  | MouseDown (e : MouseButtonEvent)
  | MouseUp (e : MouseButtonEvent)
  | MousePos (pos : Int × Int)
  | KeyDown (e : KeyDownEvent)
  | KeyUp (e : KeyUpEvent)
  | CharEvent (c : Char)
  | Resized (size : Nat × Nat)
  | CloseRequested
  | FileDropped (name : String)
  deriving DecidableEq, Repr

/-- Modelled from the spec: the configuration record `AppConfig` (§6),
declared in the missing crate root; fields fixed by their uses in both
backends. -/
structure AppConfig where
  title : String
  size : Nat × Nat
  vsync : Bool
  resizable : Bool
  fullscreen : Bool
  headless : Bool
  show_cursor : Bool
  intercept_close_request : Bool
  deriving DecidableEq, Repr

/-- Modelled from the spec: the tri-state payload of a dropped file (§3),
declared in the missing crate root; variants fixed by their uses in
web_app.rs (`BufferState::Empty` is the spec's `Pending`). -/
inductive BufferState where
  | Empty
  | Buffer (data : List UInt8)
  | Error (msg : String)
  deriving DecidableEq, Repr

/-- Modelled from the spec: the dropped-file entity `File`, declared in the
missing crate root; its single field is fixed by the literal
`File { buffer_state }` in web_app.rs. -/
structure File where
  buffer_state : BufferState
  deriving DecidableEq, Repr

namespace Native

/-- Host modifier-key snapshot (`glutin::event::ModifiersState`),
with the accessor bits used by the source. -/
structure ModifiersState where
  shift : Bool
  alt : Bool
  ctrl : Bool
  logo : Bool
  deriving DecidableEq, Repr

instance : Inhabited ModifiersState :=
  ⟨{ shift := false, alt := false, ctrl := false, logo := false }⟩

/-- Host mouse-button enumeration (`glutin::event::MouseButton`). -/
inductive MouseButton where
  | Left
  | Right
  | Middle
  | Other (val : Nat)
  deriving DecidableEq, Repr

/-- Host key press/release state (`glutin::event::ElementState`). -/
inductive ElementState where
  | Pressed
  | Released
  deriving DecidableEq, Repr

/-- Host virtual-key identifiers (`glutin::event::VirtualKeyCode`),
restricted to the representatives the development needs; `Unmapped` stands
for a key the translation table does not know. -/
inductive VirtualKeyCode where
  | Q
  | A
  | Unmapped
  deriving DecidableEq, Repr

/-- Debug formatting of a virtual key (`format!("\x7b:?\x7d", k)` fallback). -/
def debug_format : VirtualKeyCode → String
  | .Q => "Q"
  | .A => "A"
  | .Unmapped => "Unmapped"

/-- Modelled from the spec: `native_keycode::translate_virtual_key`
(file native_keycode.rs is missing from src).  Total, with the empty
string as fallback for unmapped keys (§4.1); no claim depends on the
table's individual entries. -/
def translate_virtual_key : VirtualKeyCode → String
  | .Q => "q"
  | .A => "a"
  | .Unmapped => ""

/-- Modelled from the spec: `native_keycode::translate_scan_code`
(file native_keycode.rs is missing from src).  Total, with the empty
string as fallback (§4.1); no claim depends on the table's entries. -/
def translate_scan_code (scancode : Nat) : String :=
  if scancode = 16 then "KeyQ" else if scancode = 30 then "KeyA" else ""

/-- Host keyboard input payload (`glutin::event::KeyboardInput`). -/
structure KeyboardInput where
  scancode : Nat
  state : ElementState
  virtual_keycode : Option VirtualKeyCode
  deriving DecidableEq, Repr

/-- Host window events (`glutin::event::WindowEvent`), restricted to the
variants the source matches on, plus `ModifiersChanged` (delivered by the
host but ignored by the source) and a catch-all `OtherWindowEvent`. -/
inductive WindowEvent where
  | MouseInput (state : ElementState) (button : MouseButton)
  | CursorMoved (position : Int × Int)
  | KeyboardInput (input : KeyboardInput)
  | ReceivedCharacter (c : Char)
  | Resized (size : Nat × Nat)
  | CloseRequested
  | ModifiersChanged (m : ModifiersState)
  | OtherWindowEvent
  deriving DecidableEq, Repr

/-- Host event stream items (`glutin::event::Event`): a window event or any
non-window event (`MainEventsCleared`, device events, ...). -/
inductive GEvent where
  | WindowEvent (event : WindowEvent)
  | OtherEvent
  deriving DecidableEq, Repr

/-- The backend context (`WindowContext` of native_app.rs): a normal
windowed/fullscreen GL context, whose tracked size `glwindow.resize`
updates, or a headless context. -/
inductive WindowContext where
  | Normal (tracked_size : Nat × Nat)
  | Headless (size : Nat × Nat)
  deriving DecidableEq, Repr

/-- Button canonicalization of `translate_event`'s `MouseInput` arm. -/
def button_num : MouseButton → Nat
  | .Left => 0
  | .Middle => 1
  | .Right => 2
  | .Other val => val

/-- Source `get_virtual_key`: canonical key label with debug-format
fallback for a known-but-untabulated key and empty string when the host
supplies no virtual keycode. -/
def get_virtual_key (input : KeyboardInput) : String :=
  match input.virtual_keycode with
  | some k =>
      let s := translate_virtual_key k
      if s = "" then debug_format k else s
  | none => ""

/-- Source `get_scan_code`. -/
def get_scan_code (input : KeyboardInput) : String :=
  translate_scan_code input.scancode

/-- Source `translate_event`: one host event plus the current modifier
snapshot to at most one canonical event. -/
def translate_event (e : GEvent) (modifiers : ModifiersState) : Option AppEvent :=
  match e with
  | .WindowEvent winevent =>
    match winevent with
    | .MouseInput state button =>
        let event : MouseButtonEvent := { button := button_num button }
        match state with
        | .Pressed => some (.MouseDown event)
        | .Released => some (.MouseUp event)
    | .CursorMoved position => some (.MousePos position)
    | .KeyboardInput input =>
        match input.state with
        | .Pressed => some (.KeyDown
            { key := get_virtual_key input
              code := get_scan_code input
              shift := modifiers.shift
              alt := modifiers.alt
              ctrl := modifiers.ctrl })
        | .Released => some (.KeyUp
            { key := get_virtual_key input
              code := get_scan_code input
              shift := modifiers.shift
              alt := modifiers.alt
              ctrl := modifiers.ctrl })
    | .ReceivedCharacter c => some (.CharEvent c)
    | .Resized size => some (.Resized size)
    | .CloseRequested => some .CloseRequested
    | _ => none
  | _ => none

/-- Qualifying video mode of `find_fullscreen_mode`: width and height each
match or exceed the requested size. -/
def mode_fits (config : AppConfig) (mode : Nat × Nat) : Prop :=
  config.size.1 ≤ mode.1 ∧ config.size.2 ≤ mode.2

instance (config : AppConfig) (mode : Nat × Nat) : Decidable (mode_fits config mode) := by
  unfold mode_fits; infer_instance

/-- The area product `size.width * size.height` as the source computes it:
in `u32`, which wraps on overflow (release semantics), so a mode whose true
area reaches 2^32 wraps around. -/
def mode_surf (mode : Nat × Nat) : Nat :=
  mode.1 * mode.2 % 4294967296

/-- One loop iteration of `find_fullscreen_mode`, over the accumulator
(best mode so far, smallest qualifying wrapped area so far). -/
def fs_step (config : AppConfig) (acc : Option (Nat × Nat) × Nat) (mode : Nat × Nat) :
    Option (Nat × Nat) × Nat :=
  let surf := mode_surf mode
  if mode_fits config mode ∧ surf < acc.2 then (some mode, surf) else acc

/-- Source `find_fullscreen_mode`: scan the monitor's video modes keeping
the qualifying mode of smallest u32-wrapped area, starting from the
sentinel area 40000 * 40000. -/
def find_fullscreen_mode (monitor : List (Nat × Nat)) (config : AppConfig) :
    Option (Nat × Nat) :=
  (monitor.foldl (fs_step config) (none, 40000 * 40000)).1

/-- Which context constructor `App::new` calls: `new_headless_context`,
`new_fullscreen_context` (with its chosen video mode), or
`new_windowed_context`. -/
inductive ContextKind where
  | HeadlessKind
  | FullscreenKind (video_mode : Nat × Nat)
  | WindowedKind
  deriving DecidableEq, Repr

/-- The branch structure of `App::new` selecting the backend context. -/
def select_context (config : AppConfig) (monitor : List (Nat × Nat)) : ContextKind :=
  if config.headless then .HeadlessKind
  else if config.fullscreen then
    match find_fullscreen_mode monitor config with
    | some video_mode => .FullscreenKind video_mode
    | none => .WindowedKind
  else .WindowedKind

/-- The `WindowContext` each constructor function builds.  The windowed
constructor's HiDPI scaling of the initial inner size is a host effect and
is not tracked (no claim reads the initial windowed size). -/
def build_context (config : AppConfig) : ContextKind → WindowContext
  | .HeadlessKind => .Headless config.size
  | .FullscreenKind video_mode => .Normal video_mode
  | .WindowedKind => .Normal config.size

/-- The native `App` state (struct `App` of native_app.rs); the host event
loop and monitor handle are carried as the list of its video modes. -/
structure App where
  window : WindowContext
  exiting : Bool
  modifiers : ModifiersState
  events : List AppEvent
  config : AppConfig
  monitor : List (Nat × Nat)
  deriving Repr, DecidableEq

/-- Source `App::new`: choose the backend context, then initialise the
state exactly as the struct literal does (empty queue, default modifier
snapshot, not exiting). -/
def App.new (config : AppConfig) (monitor : List (Nat × Nat)) : App :=
  { window := build_context config (select_context config monitor)
    exiting := false
    modifiers := default
    events := []
    config := config
    monitor := monitor }

/-- Source `App::handle_event`, parametrised by the compile-time
`cfg!(target_os = "macos")` flag: the special-case match (close request,
nonzero-guarded context resize, manual Cmd+Q check), then the unconditional
push of the translated event.  Returns the `running` flag and the updated
state.  Note the source never assigns `self.modifiers`. -/
def App.handle_event (macos : Bool) (app : App) (event : GEvent) : Bool × App :=
  let running := true
  let intercept_close_request := app.config.intercept_close_request
  let (running, window) :=
    match event with
    | .WindowEvent winevent =>
      match winevent with
      | .CloseRequested =>
          (if intercept_close_request then running else false, app.window)
      | .Resized size =>
          (running,
            if size.1 ≠ 0 ∧ size.2 ≠ 0 then
              match app.window with
              | .Normal _ => .Normal size
              | w => w
            else app.window)
      | .KeyboardInput input =>
          (if macos then
              match input.virtual_keycode with
              | some keycode =>
                  if keycode = .Q ∧ app.modifiers.logo then false else running
              | none => running
            else running, app.window)
      | _ => (running, app.window)
    | _ => (running, app.window)
  let events :=
    match translate_event event app.modifiers with
    | some evt => app.events ++ [evt]
    | none => app.events
  (running, { app with window := window, events := events })

/-- One invocation of the closure passed to `events_loop.run` in
`App::run`: handle the host event; if no longer running, exit without
calling the callback; otherwise call the callback, clear the queue, swap
buffers (a host effect), and exit when the application set the exit flag.
Returns the state and whether control flow is `Exit`. -/
def run_step (macos : Bool) (callback : App → App) (app : App) (event : GEvent) :
    App × Bool :=
  let (running, app1) := App.handle_event macos app event
  if running then
    let app2 := callback app1
    let app3 := { app2 with events := [] }
    (app3, app3.exiting)
  else
    (app1, true)

/-- Sequential handling of a list of host events, ignoring the run-loop
control flow (used to evaluate the translator on raw sequences). -/
def process_events (macos : Bool) (app : App) (events : List GEvent) : App :=
  events.foldl (fun a e => (App.handle_event macos a e).2) app

end Native

namespace Web

/-- Host mouse-button enumeration (`stdweb::web::event::MouseButton`). -/
inductive MouseButton where
  | Left
  | Wheel
  | Right
  | Button4
  | Button5
  deriving DecidableEq, Repr

/-- Button canonicalization of the web mouse listeners (the `match
e.button()` arms, identical in the mouse-down and mouse-up listeners). -/
def button_num : MouseButton → Nat
  | .Left => 0
  | .Wheel => 1
  | .Right => 2
  | .Button4 => 3
  | .Button5 => 4

/-- A host file reference supplied by a drop event's data transfer. -/
structure FileRef where
  name : String
  deriving DecidableEq, Repr

/-- Raw DOM events the source registers listeners for. -/
inductive DomEvent where
  | MouseDownEvent (button : MouseButton)
  | MouseUpEvent (button : MouseButton)
  | MouseMoveEvent (client_x client_y : Int)
  | KeyDownEvent (key code : String) (shift alt ctrl : Bool)
  | KeyUpEvent (key code : String) (shift alt ctrl : Bool)
  | ResizeEvent (offset_width offset_height : Nat)
  | DragDropEvent (files : List FileRef)
  deriving DecidableEq, Repr

/-- Values the mouse-move listener captures at registration time: the
canvas bounding rectangle's left/top corner. -/
structure ListenerEnv where
  canvas_x : Int
  canvas_y : Int
  deriving DecidableEq, Repr

/-- The web `App` state (struct `App` of web_app.rs); the canvas handle and
the f32 device pixel ratio are host values no claim reads and are not
tracked. -/
structure App where
  events : List AppEvent
  dropped_files : List File
  deriving DecidableEq, Repr

/-- The keyup char listener (registered first): exactly when the release's
key label has byte length 1, push a `CharEvent` with the label's first
character (`e.key().chars().next().unwrap()`). -/
def char_listener_push (key : String) : List AppEvent :=
  if key.utf8ByteSize = 1 then
    match key.toList with
    | c :: _ => [AppEvent.CharEvent c]
    | [] => []
  else []

/-- The per-file body of the drop listener: set up the async read (captured
separately by `resolve_read`), push `FileDropped` with the file's name, and
push a dropped-file entity whose buffer state is `Empty`. -/
def drop_files (app : App) (files : List FileRef) : App :=
  files.foldl
    (fun a f =>
      { a with
        events := a.events ++ [AppEvent.FileDropped f.name]
        dropped_files := a.dropped_files ++ [{ buffer_state := BufferState.Empty }] })
    app

/-- Delivery of one raw DOM event to the listeners `setup_listener`
registers, in registration order (for a key release: the char listener
first, then the keyup listener). -/
def dispatch (env : ListenerEnv) (app : App) (e : DomEvent) : App :=
  match e with
  | .MouseDownEvent button =>
      { app with events := app.events ++ [AppEvent.MouseDown { button := button_num button }] }
  | .MouseUpEvent button =>
      { app with events := app.events ++ [AppEvent.MouseUp { button := button_num button }] }
  | .MouseMoveEvent client_x client_y =>
      { app with events := app.events ++
          [AppEvent.MousePos (client_x - env.canvas_x, client_y - env.canvas_y)] }
  | .KeyDownEvent key code shift alt ctrl =>
      { app with events := app.events ++ [AppEvent.KeyDown { key, code, shift, alt, ctrl }] }
  | .KeyUpEvent key code shift alt ctrl =>
      let app1 := { app with events := app.events ++ char_listener_push key }
      { app1 with events := app1.events ++ [AppEvent.KeyUp { key, code, shift, alt, ctrl }] }
  | .ResizeEvent offset_width offset_height =>
      { app with events := app.events ++ [AppEvent.Resized (offset_width, offset_height)] }
  | .DragDropEvent files => drop_files app files

/-- The canonical events one raw DOM event makes the listeners push. -/
def emitted (env : ListenerEnv) (e : DomEvent) : List AppEvent :=
  match e with
  | .MouseDownEvent button => [AppEvent.MouseDown { button := button_num button }]
  | .MouseUpEvent button => [AppEvent.MouseUp { button := button_num button }]
  | .MouseMoveEvent client_x client_y =>
      [AppEvent.MousePos (client_x - env.canvas_x, client_y - env.canvas_y)]
  | .KeyDownEvent key code shift alt ctrl =>
      [AppEvent.KeyDown { key, code, shift, alt, ctrl }]
  | .KeyUpEvent key code shift alt ctrl =>
      char_listener_push key ++ [AppEvent.KeyUp { key, code, shift, alt, ctrl }]
  | .ResizeEvent offset_width offset_height =>
      [AppEvent.Resized (offset_width, offset_height)]
  | .DragDropEvent files => files.map (fun f => AppEvent.FileDropped f.name)

/-- The dropped-file entities one raw DOM event appends. -/
def appended_files : DomEvent → List File
  | .DragDropEvent files => files.map (fun _ => { buffer_state := BufferState.Empty })
  | _ => []

/-- Source `App::get_dropped_file`: `Vec::pop`, returning and removing the
most recently pushed dropped-file entity. -/
def App.get_dropped_file (app : App) : Option File × App :=
  (app.dropped_files.getLast?, { app with dropped_files := app.dropped_files.dropLast })

/-- Outcome the host file reader eventually delivers for one read: the
loaded byte array (`onload`), or a failure message (`onerror`/`onabort`). -/
inductive ReadResult where
  | LoadedBuffer (data : List UInt8)
  | ReadFailure (raw : String)
  deriving DecidableEq, Repr

/-- The `on_get_buffer` completion closure: overwrite the cell with
`Buffer(data)` only when the byte result is non-empty. -/
def on_get_buffer (st : BufferState) (data : List UInt8) : BufferState :=
  if data.length > 0 then .Buffer data else st

/-- The `on_error` completion closure: record the formatted message,
whatever the cell held. -/
def on_error (_st : BufferState) (raw : String) : BufferState :=
  .Error ("Fail to read file from web " ++ raw)

/-- Application of the one completion callback the host fires for a read
(both closures are dropped after their single call, so a read result is
consumed at most once). -/
def resolve_read (st : BufferState) : ReadResult → BufferState
  | .LoadedBuffer data => on_get_buffer st data
  | .ReadFailure raw => on_error st raw

/-- A dropped file's whole lifecycle: created `Empty` (the spec's
`Pending`), then at most one read outcome is applied to it. -/
def file_lifecycle (outcome : Option ReadResult) : BufferState :=
  match outcome with
  | none => .Empty
  | some r => resolve_read .Empty r

/-- Replace the element at one position of a list, leaving the rest. -/
def modify_at {α : Type} (i : Nat) (f : α → α) : List α → List α
  | [] => []
  | x :: xs =>
    match i with
    | 0 => f x :: xs
    | n + 1 => x :: modify_at n f xs

/-- The out-of-band completion step: the read outcome for the dropped file
at one position mutates only that entity's buffer-state cell (the closures
capture nothing else). -/
def resolve_file (app : App) (i : Nat) (r : ReadResult) : App :=
  { app with
    dropped_files :=
      modify_at i (fun fl => { fl with buffer_state := resolve_read fl.buffer_state r })
        app.dropped_files }

/-- One animation-frame tick of `App::run_loop`, fed the raw DOM events the
host delivered since the previous tick (listeners run on arrival, strictly
before the tick's callback): dispatch them, invoke the callback, clear the
queue, and re-register (the recursion is the host's). -/
def run_loop_tick (env : ListenerEnv) (callback : App → App) (app : App)
    (raws : List DomEvent) : App :=
  let app1 := raws.foldl (dispatch env) app
  let app2 := callback app1
  { app2 with events := [] }

/-- Host-visible construction effects of the web `App::new`, in program
order, up to listener registration. -/
inductive SetupEffect where
  | StdwebInit
  | CreateCanvas
  | AppendCanvasToBody
  | SetupListeners
  deriving DecidableEq, Repr

/-- Source web `App::new`: the headless guard panics (`unimplemented!`)
before any other construction step; otherwise the canvas is created and
sized, appended to the body, the listeners are registered, and the state
starts with an empty queue and no dropped files. -/
def App.new (config : AppConfig) : Except String App × List SetupEffect :=
  if config.headless then
    (Except.error "not implemented", [])
  else
    (Except.ok { events := [], dropped_files := [] },
      [SetupEffect.StdwebInit, SetupEffect.CreateCanvas,
        SetupEffect.AppendCanvasToBody, SetupEffect.SetupListeners])

end Web

/-! Concrete fixtures used by witnesses and counterexamples. -/

/-- A plain windowed configuration. -/
def cfg_demo : AppConfig :=
  { title := "demo"
    size := (800, 600)
    vsync := false
    resizable := false
    fullscreen := false
    headless := false
    show_cursor := true
    intercept_close_request := false }

/-- A native app over a normal context of tracked size 800 x 600. -/
def app_demo : Native.App :=
  { window := .Normal (800, 600)
    exiting := false
    modifiers := default
    events := []
    config := cfg_demo
    monitor := [] }

/-- The demo app with the logo (Cmd) modifier bit set. -/
def app_logo : Native.App :=
  { app_demo with modifiers := { shift := false, alt := false, ctrl := false, logo := true } }

/-- The demo configuration asking for 1920 x 1080 fullscreen. -/
def cfg_fs : AppConfig := { cfg_demo with fullscreen := true, size := (1920, 1080) }

/-- A listener environment with the canvas at the document origin. -/
def env0 : Web.ListenerEnv := { canvas_x := 0, canvas_y := 0 }

/-- A web app with two dropped-file entities already present. -/
def wapp_demo : Web.App :=
  { events := []
    dropped_files := [{ buffer_state := .Empty }, { buffer_state := .Buffer [7] }] }

/-- Modelled from the spec: the hand-authored physical correspondence
between the two hosts' mouse-button enumerations (§3: native `Other(val)`
maps to `val`, web `Button4`/`Button5` map to 3/4, so they correspond to
native `Other 3`/`Other 4`). -/
def to_native_button : Web.MouseButton → Native.MouseButton
  | .Left => .Left
  | .Wheel => .Middle
  | .Right => .Right
  | .Button4 => .Other 3
  | .Button5 => .Other 4

/-! Helper lemmas about the embedded operations. -/

/-- Handling one host event appends exactly the translated event (if any)
to the queue. -/
theorem handle_event_events (macos : Bool) (app : Native.App) (e : Native.GEvent) :
    ((Native.App.handle_event macos app e).2).events
      = app.events ++ (Native.translate_event e app.modifiers).toList := by
  cases h : Native.translate_event e app.modifiers <;>
  · cases e with
    | OtherEvent => simp [Native.App.handle_event, h]
    | WindowEvent w => cases w <;> simp [Native.App.handle_event, h]

/-- The source never assigns `self.modifiers` after construction. -/
theorem handle_event_modifiers (macos : Bool) (app : Native.App) (e : Native.GEvent) :
    ((Native.App.handle_event macos app e).2).modifiers = app.modifiers := by
  cases e with
  | OtherEvent => simp [Native.App.handle_event]
  | WindowEvent w => cases w <;> simp [Native.App.handle_event]

/-- Web event delivery appends exactly the listener-pushed events. -/
theorem dispatch_events (env : Web.ListenerEnv) (app : Web.App) (e : Web.DomEvent) :
    (Web.dispatch env app e).events = app.events ++ Web.emitted env e := by
  cases e with
  | DragDropEvent files =>
      show (Web.drop_files app files).events = _
      induction files generalizing app with
      | nil => simp [Web.drop_files, Web.emitted]
      | cons f fs ih =>
          simp only [Web.drop_files] at ih ⊢
          rw [List.foldl_cons, ih]
          simp [Web.emitted]
  | _ => simp [Web.dispatch, Web.emitted]

/-- Web event delivery appends exactly the listener-pushed dropped-file
entities. -/
theorem dispatch_dropped_files (env : Web.ListenerEnv) (app : Web.App) (e : Web.DomEvent) :
    (Web.dispatch env app e).dropped_files = app.dropped_files ++ Web.appended_files e := by
  cases e with
  | DragDropEvent files =>
      show (Web.drop_files app files).dropped_files = _
      induction files generalizing app with
      | nil => simp [Web.drop_files, Web.appended_files]
      | cons f fs ih =>
          simp only [Web.drop_files] at ih ⊢
          rw [List.foldl_cons, ih]
          simp [Web.appended_files]
  | _ => simp [Web.dispatch, Web.appended_files]

/-- Delivering a batch of raw DOM events appends exactly their emitted
canonical events, in order. -/
theorem foldl_dispatch_events (env : Web.ListenerEnv) (app : Web.App)
    (raws : List Web.DomEvent) :
    (raws.foldl (Web.dispatch env) app).events
      = app.events ++ (raws.map (Web.emitted env)).flatten := by
  induction raws generalizing app with
  | nil => simp
  | cons r rs ih =>
      rw [List.foldl_cons, ih, dispatch_events]
      simp

/-- Replacing one list position leaves every other position unchanged. -/
theorem modify_at_getElem_ne {α : Type} (f : α → α) :
    ∀ (l : List α) (i j : Nat), j ≠ i → (Web.modify_at i f l)[j]? = l[j]? := by
  intro l
  induction l with
  | nil => intro i j _; simp [Web.modify_at]
  | cons x xs ih =>
      intro i j hne
      cases i with
      | zero =>
          cases j with
          | zero => exact absurd rfl hne
          | succ k => simp [Web.modify_at]
      | succ n =>
          cases j with
          | zero => simp [Web.modify_at]
          | succ k =>
              have : k ≠ n := fun h => hne (by simp [h])
              simp [Web.modify_at, ih n k this]

/-! Claim theorems. -/

/-- C1 counterexample: starting from a normal context of tracked size
800 x 600 with an empty queue, handling a raw `Resized(0,0)` leaves the
tracked size unchanged but DOES append a canonical `Resized(0,0)` to the
queue (`translate_event` forwards every resize), contradicting the claim
that no `Resized` canonical event is appended for that frame. -/
theorem resized_zero_event_is_forwarded :
    ((Native.App.handle_event false app_demo (.WindowEvent (.Resized (0, 0)))).2).events
      = [AppEvent.Resized (0, 0)]
    ∧ ((Native.App.handle_event false app_demo (.WindowEvent (.Resized (0, 0)))).2).window
      = Native.WindowContext.Normal (800, 600) := by
  constructor <;> rfl

/-- C1 amended: on a raw `Resized(0,0)` the layer suppresses only the
context resize — the backend context's tracked size is unchanged and the
loop keeps running — while a canonical `Resized(0,0)` event is still
appended to the queue. -/
theorem resized_zero_suppresses_only_context_resize (macos : Bool) (app : Native.App) :
    Native.App.handle_event macos app (.WindowEvent (.Resized (0, 0)))
      = (true, { app with events := app.events ++ [AppEvent.Resized (0, 0)] }) := by
  simp [Native.App.handle_event, Native.translate_event]

/-- C2: the code never updates the modifier state — `self.modifiers` is
initialised to the default snapshot and never assigned (there is no
`ModifiersChanged` handling), so after a raw shift-modifier change a
key-down canonical event still carries `shift = false`, against the claim
that every KeyDown/KeyUp carries the modifier flags in effect at the time
of its raw event. -/
theorem modifiers_are_never_updated :
    (∀ (macos : Bool) (app : Native.App) (e : Native.GEvent),
        ((Native.App.handle_event macos app e).2).modifiers = app.modifiers)
    ∧ (Native.process_events false (Native.App.new cfg_demo [])
          [.WindowEvent (.ModifiersChanged
              { shift := true, alt := false, ctrl := false, logo := false }),
           .WindowEvent (.KeyboardInput
              { scancode := 30, state := .Pressed, virtual_keycode := some .A })]).events
        = [AppEvent.KeyDown
            { key := "a", code := "KeyA", shift := false, alt := false, ctrl := false }] := by
  refine ⟨fun macos app e => handle_event_modifiers macos app e, ?_⟩
  decide

/-- C4: a `CloseRequested` with `intercept_close_request = false` sets
running to false, with `intercept_close_request = true` it does not; the
macOS Cmd+Q check (logo modifier bit set, virtual key Q) sets running to
false; and whenever running is false the loop body terminates
unconditionally, returning the post-translation state untouched by the
callback — the callback is not invoked for that iteration and the queue is
not cleared. -/
theorem close_request_and_shortcut_stop_loop :
    (∀ (macos : Bool) (app : Native.App),
        app.config.intercept_close_request = false →
        (Native.App.handle_event macos app (.WindowEvent .CloseRequested)).1 = false)
    ∧ (∀ (macos : Bool) (app : Native.App),
        app.config.intercept_close_request = true →
        (Native.App.handle_event macos app (.WindowEvent .CloseRequested)).1 = true)
    ∧ (∀ (app : Native.App) (input : Native.KeyboardInput),
        app.modifiers.logo = true →
        input.virtual_keycode = some .Q →
        (Native.App.handle_event true app (.WindowEvent (.KeyboardInput input))).1 = false)
    ∧ (∀ (macos : Bool) (cb : Native.App → Native.App) (app : Native.App) (e : Native.GEvent),
        (Native.App.handle_event macos app e).1 = false →
        Native.run_step macos cb app e = ((Native.App.handle_event macos app e).2, true)) := by
  refine ⟨?_, ?_, ?_, ?_⟩
  · intro macos app h
    simp [Native.App.handle_event, h]
  · intro macos app h
    simp [Native.App.handle_event, h]
  · intro app input h1 h2
    simp [Native.App.handle_event, h1, h2]
  · intro macos cb app e h
    simp [Native.run_step, h]

/-- C4 witness: on the demo app (which does not intercept close requests)
a raw `CloseRequested` stops the loop and the loop body exits without
touching the state; on the logo-modified app a pressed Q stops the loop. -/
theorem close_request_and_shortcut_stop_loop_witness :
    (app_demo.config.intercept_close_request = false)
    ∧ ((Native.App.handle_event false app_demo (.WindowEvent .CloseRequested)).1 = false)
    ∧ (Native.run_step false id app_demo (.WindowEvent .CloseRequested)
        = ((Native.App.handle_event false app_demo (.WindowEvent .CloseRequested)).2, true))
    ∧ (app_logo.modifiers.logo = true)
    ∧ ((Native.App.handle_event true app_logo
          (.WindowEvent (.KeyboardInput
            { scancode := 16, state := .Pressed, virtual_keycode := some .Q }))).1 = false) :=
  ⟨by decide,
    close_request_and_shortcut_stop_loop.1 false app_demo (by decide),
    close_request_and_shortcut_stop_loop.2.2.2 false id app_demo (.WindowEvent .CloseRequested)
      (close_request_and_shortcut_stop_loop.1 false app_demo (by decide)),
    by decide,
    close_request_and_shortcut_stop_loop.2.2.1 app_logo
      { scancode := 16, state := .Pressed, virtual_keycode := some .Q } (by decide) rfl⟩

/-- C8: both backends canonicalize mouse buttons identically and stably —
left is 0, middle/wheel is 1, right is 2 on both; the web extra buttons
`Button4`/`Button5` map to 3/4; the native `Other(val)` maps to `val`; and
the two mappings agree along the physical-button correspondence. -/
theorem button_canonicalization_agrees :
    (Native.button_num .Left = 0 ∧ Web.button_num .Left = 0)
    ∧ (Native.button_num .Middle = 1 ∧ Web.button_num .Wheel = 1)
    ∧ (Native.button_num .Right = 2 ∧ Web.button_num .Right = 2)
    ∧ (Web.button_num .Button4 = 3 ∧ Web.button_num .Button5 = 4)
    ∧ (∀ val : Nat, Native.button_num (.Other val) = val)
    ∧ (∀ wb : Web.MouseButton, Web.button_num wb = Native.button_num (to_native_button wb)) := by
  refine ⟨⟨rfl, rfl⟩, ⟨rfl, rfl⟩, ⟨rfl, rfl⟩, ⟨rfl, rfl⟩, fun val => rfl, fun wb => ?_⟩
  cases wb <;> rfl

/-- C10: for every configuration with `headless = true` the web `App::new`
panics (`unimplemented!`, modelled as the error outcome) before any
construction effect — in particular no canvas is created — so headless
construction never succeeds on web. -/
theorem web_headless_construction_panics (config : AppConfig)
    (h : config.headless = true) :
    Web.App.new config = (Except.error "not implemented", [])
    ∧ Web.SetupEffect.CreateCanvas ∉ (Web.App.new config).2 := by
  constructor
  · simp [Web.App.new, h]
  · simp [Web.App.new, h]

/-- C10 witness: the demo configuration with headless switched on. -/
theorem web_headless_construction_panics_witness :
    (({ cfg_demo with headless := true } : AppConfig).headless = true)
    ∧ (Web.App.new { cfg_demo with headless := true }
        = (Except.error "not implemented", [])
      ∧ Web.SetupEffect.CreateCanvas
          ∉ (Web.App.new { cfg_demo with headless := true }).2) :=
  ⟨rfl, web_headless_construction_panics { cfg_demo with headless := true } rfl⟩

/-- Invariant of the `find_fullscreen_mode` scan: from an accumulator whose
mode (if any) qualifies and has wrapped area equal to the tracked smallest,
the result mode (if any) is the initial one or a scanned one, qualifies,
and has wrapped area equal to the final tracked value; the tracked value
never grows, and it is a lower bound on the wrapped area of every
qualifying mode scanned. -/
theorem fs_foldl_spec (config : AppConfig) :
    ∀ (modes : List (Nat × Nat)) (vm : Option (Nat × Nat)) (s : Nat),
      (∀ m0, vm = some m0 → Native.mode_fits config m0 ∧ Native.mode_surf m0 = s) →
      (∀ m, (modes.foldl (Native.fs_step config) (vm, s)).1 = some m →
          (vm = some m ∨ m ∈ modes)
            ∧ Native.mode_fits config m
            ∧ Native.mode_surf m = (modes.foldl (Native.fs_step config) (vm, s)).2)
        ∧ (modes.foldl (Native.fs_step config) (vm, s)).2 ≤ s
        ∧ (∀ m' ∈ modes, Native.mode_fits config m' →
            (modes.foldl (Native.fs_step config) (vm, s)).2 ≤ Native.mode_surf m') := by
  intro modes
  induction modes with
  | nil =>
      intro vm s hvm
      refine ⟨?_, le_refl s, ?_⟩
      · intro m hm
        exact ⟨Or.inl hm, (hvm m hm).1, (hvm m hm).2⟩
      · intro m' hm'
        simp at hm'
  | cons m0 rest ih =>
      intro vm s hvm
      rw [List.foldl_cons]
      by_cases hc : Native.mode_fits config m0 ∧ Native.mode_surf m0 < s
      · have hstep : Native.fs_step config (vm, s) m0 = (some m0, Native.mode_surf m0) := by
          simp [Native.fs_step, hc]
        rw [hstep]
        have hvm' : ∀ mm, (some m0 : Option (Nat × Nat)) = some mm →
            Native.mode_fits config mm ∧ Native.mode_surf mm = Native.mode_surf m0 := by
          intro mm hmm
          cases hmm
          exact ⟨hc.1, rfl⟩
        obtain ⟨ha, hb, hmin⟩ := ih (some m0) (Native.mode_surf m0) hvm'
        refine ⟨?_, le_trans hb (le_of_lt hc.2), ?_⟩
        · intro m hm
          obtain ⟨hor, hfit, hsurf⟩ := ha m hm
          refine ⟨Or.inr ?_, hfit, hsurf⟩
          rcases hor with h1 | h2
          · injection h1 with h1'
            exact h1' ▸ List.mem_cons_self m0 rest
          · exact List.mem_cons_of_mem m0 h2
        · intro m' hm' hfit
          rcases List.mem_cons.mp hm' with h1 | h2
          · subst h1
            exact hb
          · exact hmin m' h2 hfit
      · have hstep : Native.fs_step config (vm, s) m0 = (vm, s) := by
          simp only [Native.fs_step]
          exact if_neg hc
        rw [hstep]
        obtain ⟨ha, hb, hmin⟩ := ih vm s hvm
        refine ⟨?_, hb, ?_⟩
        · intro m hm
          obtain ⟨hor, hfit, hsurf⟩ := ha m hm
          exact ⟨hor.imp_right (List.mem_cons_of_mem m0), hfit, hsurf⟩
        · intro m' hm' hfit
          rcases List.mem_cons.mp hm' with h1 | h2
          · subst h1
            have hnlt : ¬ Native.mode_surf m' < s := fun hlt => hc ⟨hfit, hlt⟩
            exact le_trans hb (le_of_not_lt hnlt)
          · exact hmin m' h2 hfit

/-- A mode returned by `find_fullscreen_mode` belongs to the monitor,
qualifies, and has the smallest u32-wrapped area among all qualifying
modes of the monitor. -/
theorem find_fullscreen_mode_spec (config : AppConfig) (monitor : List (Nat × Nat))
    (m : Nat × Nat) (h : Native.find_fullscreen_mode monitor config = some m) :
    m ∈ monitor
    ∧ Native.mode_fits config m
    ∧ ∀ m' ∈ monitor, Native.mode_fits config m' →
        Native.mode_surf m ≤ Native.mode_surf m' := by
  simp only [Native.find_fullscreen_mode] at h
  obtain ⟨ha, _, hmin⟩ :=
    fs_foldl_spec config monitor none (40000 * 40000) (by intro m0 h0; cases h0)
  obtain ⟨hor, hfit, hsurf⟩ := ha m h
  have hmem : m ∈ monitor := by
    rcases hor with h1 | h2
    · simp at h1
    · exact h2
  exact ⟨hmem, hfit, fun m' hm' hf => hsurf ▸ hmin m' hm' hf⟩

/-- When no video mode qualifies, `find_fullscreen_mode` returns none. -/
theorem find_fullscreen_mode_none (config : AppConfig) (monitor : List (Nat × Nat))
    (h : ∀ m' ∈ monitor, ¬ Native.mode_fits config m') :
    Native.find_fullscreen_mode monitor config = none := by
  simp only [Native.find_fullscreen_mode]
  have : ∀ (l : List (Nat × Nat)) (acc : Option (Nat × Nat) × Nat),
      (∀ m' ∈ l, ¬ Native.mode_fits config m') →
      l.foldl (Native.fs_step config) acc = acc := by
    intro l
    induction l with
    | nil => intro acc _; rfl
    | cons m0 rest ih =>
        intro acc hl
        rw [List.foldl_cons]
        have hstep : Native.fs_step config acc m0 = acc := by
          simp only [Native.fs_step]
          exact if_neg (fun hcon => hl m0 (List.mem_cons_self m0 rest) hcon.1)
        rw [hstep]
        exact ih acc (fun m' hm' => hl m' (List.mem_cons_of_mem m0 hm'))
  rw [this monitor (none, 40000 * 40000) h]

/-- C7 counterexample: the source computes the video-mode area in `u32`,
which wraps: with modes 65536x65536 and 1920x1080 and a 1920x1080 request,
the 65536x65536 mode's area wraps to 0 and it is selected, although the
qualifying 1920x1080 mode has a strictly smaller true area — so the chosen
mode does not have the smallest matching-or-exceeding area, contradicting
the claim as stated. -/
theorem wrapped_area_defeats_smallest_mode :
    (Native.find_fullscreen_mode [(65536, 65536), (1920, 1080)] cfg_fs
        = some (65536, 65536))
    ∧ Native.mode_fits cfg_fs (1920, 1080)
    ∧ 1920 * 1080 < 65536 * 65536 := by
  refine ⟨by decide, by decide, by decide⟩

/-- C7 amended: construction selects exactly one backend context with
priority headless over fullscreen over windowed; a fullscreen mode, when
found, belongs to the monitor, has width and height each
matching-or-exceeding the requested size, and has the smallest
u32-wrapped area product among qualifying modes — hence the smallest true
area whenever every qualifying mode's true area is below 2^32, as on
physical monitors; the 1920x1080 scenario selects the exact match; and
when no qualifying mode exists construction falls back to windowed. -/
theorem backend_selection_priority_and_best_mode :
    (∀ (config : AppConfig) (monitor : List (Nat × Nat)),
        config.headless = true → Native.select_context config monitor = .HeadlessKind)
    ∧ (∀ (config : AppConfig) (monitor : List (Nat × Nat)) (m : Nat × Nat),
        config.headless = false → config.fullscreen = true →
        Native.find_fullscreen_mode monitor config = some m →
        Native.select_context config monitor = .FullscreenKind m
          ∧ m ∈ monitor
          ∧ Native.mode_fits config m
          ∧ (∀ m' ∈ monitor, Native.mode_fits config m' →
              Native.mode_surf m ≤ Native.mode_surf m')
          ∧ ((∀ m' ∈ monitor, Native.mode_fits config m' → m'.1 * m'.2 < 4294967296) →
              ∀ m' ∈ monitor, Native.mode_fits config m' → m.1 * m.2 ≤ m'.1 * m'.2))
    ∧ (∀ (config : AppConfig) (monitor : List (Nat × Nat)),
        config.headless = false → config.fullscreen = true →
        (∀ m' ∈ monitor, ¬ Native.mode_fits config m') →
        Native.select_context config monitor = .WindowedKind)
    ∧ (Native.find_fullscreen_mode [(1920, 1080), (2560, 1440), (1920, 1200)] cfg_fs
          = some (1920, 1080)
        ∧ Native.select_context cfg_fs [(1920, 1080), (2560, 1440), (1920, 1200)]
          = .FullscreenKind (1920, 1080)) := by
  refine ⟨?_, ?_, ?_, by decide, by decide⟩
  · intro config monitor h
    simp [Native.select_context, h]
  · intro config monitor m h1 h2 h3
    obtain ⟨hmem, hfit, hmin⟩ := find_fullscreen_mode_spec config monitor m h3
    refine ⟨by simp [Native.select_context, h1, h2, h3], hmem, hfit, hmin, ?_⟩
    intro hbound m' hm' hf
    have e1 : Native.mode_surf m = m.1 * m.2 := Nat.mod_eq_of_lt (hbound m hmem hfit)
    have e2 : Native.mode_surf m' = m'.1 * m'.2 := Nat.mod_eq_of_lt (hbound m' hm' hf)
    calc m.1 * m.2 = Native.mode_surf m := e1.symm
      _ ≤ Native.mode_surf m' := hmin m' hm' hf
      _ = m'.1 * m'.2 := e2
  · intro config monitor h1 h2 h3
    simp [Native.select_context, h1, h2, find_fullscreen_mode_none config monitor h3]

/-- C7 witness: headless wins even with fullscreen requested; the
1920x1080 scenario selects the exact match, and on that overflow-free
monitor the chosen mode's true area is a lower bound for another
qualifying mode's; a monitor whose only mode is too small falls back to
windowed. -/
theorem backend_selection_priority_and_best_mode_witness :
    (({ cfg_fs with headless := true } : AppConfig).headless = true)
    ∧ (Native.select_context { cfg_fs with headless := true } [] = .HeadlessKind)
    ∧ (Native.select_context cfg_fs [(1920, 1080), (2560, 1440), (1920, 1200)]
        = .FullscreenKind (1920, 1080))
    ∧ (1920 * 1080 ≤ 2560 * 1440)
    ∧ (Native.select_context cfg_fs [(100, 100)] = .WindowedKind) :=
  ⟨rfl,
    backend_selection_priority_and_best_mode.1 { cfg_fs with headless := true } [] rfl,
    (backend_selection_priority_and_best_mode.2.1 cfg_fs
      [(1920, 1080), (2560, 1440), (1920, 1200)] (1920, 1080) rfl rfl (by decide)).1,
    (backend_selection_priority_and_best_mode.2.1 cfg_fs
      [(1920, 1080), (2560, 1440), (1920, 1200)] (1920, 1080) rfl rfl (by decide)).2.2.2.2
      (by decide) (2560, 1440) (by decide) (by decide),
    backend_selection_priority_and_best_mode.2.2.1 cfg_fs [(100, 100)] rfl rfl (by decide)⟩

/-- C3: in the blocking strategy, whenever the loop keeps running, the loop
body applies the callback to the full post-translation state and clears the
queue exactly once, after the callback returns (first equation); the state
after the frame has an empty queue; and the queue the callback would
observe at the next frame holds exactly the translation of that frame's
raw event — nothing from the previous frame.  In the cooperative strategy,
each tick applies the callback to the state holding the tick's dispatched
events and then clears the queue (fourth conjunct, first equation), and
the queue observed after the next tick's raw events are delivered is
exactly those events' emissions. -/
theorem queue_cleared_once_per_frame_no_leak (macos : Bool)
    (cb : Native.App → Native.App) (app : Native.App) (e e' : Native.GEvent)
    (h : (Native.App.handle_event macos app e).1 = true) :
    (Native.run_step macos cb app e
        = ({ cb (Native.App.handle_event macos app e).2 with events := [] },
            (cb (Native.App.handle_event macos app e).2).exiting))
    ∧ ((Native.run_step macos cb app e).1.events = [])
    ∧ ((Native.App.handle_event macos (Native.run_step macos cb app e).1 e').2.events
        = (Native.translate_event e' ((Native.run_step macos cb app e).1).modifiers).toList)
    ∧ (∀ (env : Web.ListenerEnv) (wcb : Web.App → Web.App) (w : Web.App)
          (raws raws' : List Web.DomEvent),
        (Web.run_loop_tick env wcb w raws
            = { wcb (raws.foldl (Web.dispatch env) w) with events := [] })
        ∧ ((raws'.foldl (Web.dispatch env) (Web.run_loop_tick env wcb w raws)).events
            = (raws'.map (Web.emitted env)).flatten)) := by
  have hstep : Native.run_step macos cb app e
      = ({ cb (Native.App.handle_event macos app e).2 with events := [] },
          (cb (Native.App.handle_event macos app e).2).exiting) := by
    simp [Native.run_step, h]
  refine ⟨hstep, by rw [hstep], ?_, ?_⟩
  · rw [handle_event_events, hstep]
    simp
  · intro env wcb w raws raws'
    refine ⟨rfl, ?_⟩
    rw [foldl_dispatch_events]
    simp [Web.run_loop_tick]

/-- C3 witness: on the demo app, a non-window host event keeps the loop
running, the frame leaves an empty queue, and the next frame's queue holds
exactly the next event's translation. -/
theorem queue_cleared_once_per_frame_no_leak_witness :
    ((Native.App.handle_event false app_demo .OtherEvent).1 = true)
    ∧ ((Native.run_step false id app_demo .OtherEvent).1.events = [])
    ∧ ((Native.App.handle_event false (Native.run_step false id app_demo .OtherEvent).1
          (.WindowEvent .CloseRequested)).2.events
        = (Native.translate_event (.WindowEvent .CloseRequested)
            ((Native.run_step false id app_demo .OtherEvent).1).modifiers).toList) :=
  ⟨by decide,
    (queue_cleared_once_per_frame_no_leak false id app_demo .OtherEvent
      (.WindowEvent .CloseRequested) (by decide)).2.1,
    (queue_cleared_once_per_frame_no_leak false id app_demo .OtherEvent
      (.WindowEvent .CloseRequested) (by decide)).2.2.1⟩

/-- C5: a drop event synchronously appends, for every file reference the
host supplies, a `FileDropped` canonical event with that file's name and a
dropped-file entity in the `Empty` (Pending) state; the tick containing the
drop delivers those events to the callback (the callback runs on the
post-drop state); and `get_dropped_file` returns the most recently dropped
entity and removes it, returning none when no entity is left. -/
theorem file_drop_same_frame_and_stack_retrieval :
    (∀ (env : Web.ListenerEnv) (app : Web.App) (files : List Web.FileRef),
        (Web.dispatch env app (.DragDropEvent files)).events
          = app.events ++ files.map (fun f => AppEvent.FileDropped f.name))
    ∧ (∀ (env : Web.ListenerEnv) (app : Web.App) (files : List Web.FileRef),
        (Web.dispatch env app (.DragDropEvent files)).dropped_files
          = app.dropped_files ++ files.map (fun _ => { buffer_state := BufferState.Empty }))
    ∧ (∀ (env : Web.ListenerEnv) (wcb : Web.App → Web.App) (app : Web.App)
          (files : List Web.FileRef),
        Web.run_loop_tick env wcb app [.DragDropEvent files]
          = { wcb (Web.dispatch env app (.DragDropEvent files)) with events := [] })
    ∧ (∀ (app : Web.App) (l : List File) (fl : File),
        app.dropped_files = l ++ [fl] →
        Web.App.get_dropped_file app = (some fl, { app with dropped_files := l }))
    ∧ (∀ app : Web.App, app.dropped_files = [] →
        Web.App.get_dropped_file app = (none, app)) := by
  refine ⟨?_, ?_, ?_, ?_, ?_⟩
  · intro env app files
    rw [dispatch_events]
    rfl
  · intro env app files
    rw [dispatch_dropped_files]
    rfl
  · intro env wcb app files
    rfl
  · intro app l fl h
    cases app with
    | mk ev df =>
        simp only at h
        subst h
        simp [Web.App.get_dropped_file, List.getLast?_concat, List.dropLast_concat]
  · intro app h
    cases app with
    | mk ev df =>
        simp only at h
        subst h
        simp [Web.App.get_dropped_file]

/-- C5 witness: on an app holding two dropped entities, the pop returns the
most recent one and removes it; dropping two files onto it appends their
`FileDropped` events and two Pending entities. -/
theorem file_drop_same_frame_and_stack_retrieval_witness :
    (wapp_demo.dropped_files
        = [{ buffer_state := BufferState.Empty }] ++ [{ buffer_state := BufferState.Buffer [7] }])
    ∧ (Web.App.get_dropped_file wapp_demo
        = (some { buffer_state := BufferState.Buffer [7] },
            { wapp_demo with dropped_files := [{ buffer_state := BufferState.Empty }] }))
    ∧ ((Web.dispatch env0 wapp_demo (.DragDropEvent [{ name := "a.txt" }, { name := "b.txt" }])).events
        = wapp_demo.events
            ++ [{ name := "a.txt" }, ({ name := "b.txt" } : Web.FileRef)].map
                (fun f => AppEvent.FileDropped f.name)) :=
  ⟨rfl,
    file_drop_same_frame_and_stack_retrieval.2.2.2.1 wapp_demo
      [{ buffer_state := BufferState.Empty }] { buffer_state := BufferState.Buffer [7] } rfl,
    file_drop_same_frame_and_stack_retrieval.1 env0 wapp_demo
      [{ name := "a.txt" }, { name := "b.txt" }]⟩

/-- C6: the asynchronous read's completion resolves a Pending (`Empty`)
entity to `Buffer(bytes)` exactly on a non-empty byte result, leaves it
Pending on a zero-length result, and records `Error` with the formatted
message on failure; the completion step never touches the event queue and
mutates no other entity; and a file starts Pending with at most one
outcome ever applied (the completion closures are single-shot). -/
theorem async_read_resolves_entity_only :
    (∀ data : List UInt8, data ≠ [] →
        Web.resolve_read .Empty (.LoadedBuffer data) = .Buffer data)
    ∧ (Web.resolve_read .Empty (.LoadedBuffer []) = .Empty)
    ∧ (∀ (st : BufferState) (raw : String),
        Web.resolve_read st (.ReadFailure raw)
          = .Error ("Fail to read file from web " ++ raw))
    ∧ (∀ (app : Web.App) (i : Nat) (r : Web.ReadResult),
        (Web.resolve_file app i r).events = app.events)
    ∧ (∀ (app : Web.App) (i j : Nat) (r : Web.ReadResult), j ≠ i →
        ((Web.resolve_file app i r).dropped_files)[j]? = app.dropped_files[j]?)
    ∧ (Web.file_lifecycle none = .Empty) := by
  refine ⟨?_, rfl, ?_, ?_, ?_, rfl⟩
  · intro data h
    have hpos : 0 < data.length := List.length_pos.mpr h
    simp [Web.resolve_read, Web.on_get_buffer, hpos]
  · intro st raw
    rfl
  · intro app i r
    rfl
  · intro app i j r hne
    exact modify_at_getElem_ne _ app.dropped_files i j hne

/-- C6 witness: a one-byte result resolves to `Buffer`, and resolving the
first of two entities leaves the second untouched. -/
theorem async_read_resolves_entity_only_witness :
    (([65] : List UInt8) ≠ [])
    ∧ (Web.resolve_read .Empty (.LoadedBuffer [65]) = .Buffer [65])
    ∧ ((1 : Nat) ≠ 0)
    ∧ (((Web.resolve_file wapp_demo 0 (.LoadedBuffer [65])).dropped_files)[1]?
        = wapp_demo.dropped_files[1]?) :=
  ⟨by decide,
    async_read_resolves_entity_only.1 [65] (by decide),
    by decide,
    async_read_resolves_entity_only.2.2.2.2.1 wapp_demo 0 1 (.LoadedBuffer [65]) (by decide)⟩

/-- C9 counterexample: a single raw drop event carrying two file references
emits two canonical events, so a raw input that is not a web key release
can produce more than one canonical event, contradicting the claim as
stated. -/
theorem multi_file_drop_emits_two_events :
    (Web.emitted env0 (.DragDropEvent [{ name := "a.txt" }, { name := "b.txt" }])
        = [AppEvent.FileDropped "a.txt", AppEvent.FileDropped "b.txt"])
    ∧ ¬ ((Web.emitted env0
          (.DragDropEvent [{ name := "a.txt" }, { name := "b.txt" }])).length ≤ 1) := by
  exact ⟨rfl, by decide⟩

/-- C9 amended: one raw input produces at most one canonical event, except
a web key release — which pushes a `CharEvent` carrying the label's single
character exactly when the key label has byte length 1, followed by the
`KeyUp` event — and a web drop event, which produces one `FileDropped` per
supplied file; on native, `CharEvent` is produced directly from the host's
received-character event. -/
theorem one_raw_input_one_event_except_keyup_and_drop :
    (∀ (e : Native.GEvent) (m : Native.ModifiersState),
        (Native.translate_event e m).toList.length ≤ 1)
    ∧ (∀ (c : Char) (m : Native.ModifiersState),
        Native.translate_event (.WindowEvent (.ReceivedCharacter c)) m
          = some (AppEvent.CharEvent c))
    ∧ (∀ (env : Web.ListenerEnv) (key code : String) (shift alt ctrl : Bool)
          (c : Char) (cs : List Char),
        key.utf8ByteSize = 1 → key.toList = c :: cs →
        Web.emitted env (.KeyUpEvent key code shift alt ctrl)
          = [AppEvent.CharEvent c, AppEvent.KeyUp { key, code, shift, alt, ctrl }])
    ∧ (∀ (env : Web.ListenerEnv) (key code : String) (shift alt ctrl : Bool),
        key.utf8ByteSize ≠ 1 →
        Web.emitted env (.KeyUpEvent key code shift alt ctrl)
          = [AppEvent.KeyUp { key, code, shift, alt, ctrl }])
    ∧ (∀ (env : Web.ListenerEnv) (files : List Web.FileRef),
        Web.emitted env (.DragDropEvent files)
          = files.map (fun f => AppEvent.FileDropped f.name))
    ∧ (∀ (env : Web.ListenerEnv) (e : Web.DomEvent),
        (Web.emitted env e).length ≤ 1
        ∨ (∃ key code shift alt ctrl, e = Web.DomEvent.KeyUpEvent key code shift alt ctrl)
        ∨ (∃ files, e = Web.DomEvent.DragDropEvent files)) := by
  refine ⟨?_, fun c m => rfl, ?_, ?_, fun env files => rfl, ?_⟩
  · intro e m
    cases e with
    | OtherEvent => simp [Native.translate_event]
    | WindowEvent w =>
        cases w with
        | MouseInput st b => cases st <;> simp [Native.translate_event]
        | KeyboardInput input =>
            cases input with
            | mk sc st vk => cases st <;> simp [Native.translate_event]
        | _ => simp [Native.translate_event]
  · intro env key code shift alt ctrl c cs h1 h2
    have h2' : key.data = c :: cs := h2
    simp [Web.emitted, Web.char_listener_push, h1, h2']
  · intro env key code shift alt ctrl h
    simp [Web.emitted, Web.char_listener_push, h]
  · intro env e
    cases e with
    | KeyUpEvent key code shift alt ctrl =>
        exact Or.inr (Or.inl ⟨key, code, shift, alt, ctrl, rfl⟩)
    | DragDropEvent files => exact Or.inr (Or.inr ⟨files, rfl⟩)
    | _ => exact Or.inl (by simp [Web.emitted])

/-- C9 amended witness: releasing the "a" key emits the char event then the
key-up event; releasing "Tab" emits only the key-up event. -/
theorem one_raw_input_one_event_except_keyup_and_drop_witness :
    ("a".utf8ByteSize = 1)
    ∧ ("a".toList = 'a' :: [])
    ∧ (Web.emitted env0 (.KeyUpEvent "a" "KeyA" false false false)
        = [AppEvent.CharEvent 'a',
            AppEvent.KeyUp
              { key := "a", code := "KeyA", shift := false, alt := false, ctrl := false }])
    ∧ ("Tab".utf8ByteSize ≠ 1)
    ∧ (Web.emitted env0 (.KeyUpEvent "Tab" "Tab" false false false)
        = [AppEvent.KeyUp
            { key := "Tab", code := "Tab", shift := false, alt := false, ctrl := false }]) :=
  ⟨by decide, by decide,
    one_raw_input_one_event_except_keyup_and_drop.2.2.1 env0 "a" "KeyA" false false false
      'a' [] (by decide) (by decide),
    by decide,
    one_raw_input_one_event_except_keyup_and_drop.2.2.2.1 env0 "Tab" "Tab" false false false
      (by decide)⟩

end Uni
